import Mathlib

/-!
Verification of the `argparser` crate (src/lib.rs): a shallow embedding of
the specification model (`Flag`, `Argument`, `Parser`, `ParsedArgs`), the
usage renderer (`Parser.help`) and the token-classifying state machine
(`Parser.parse`), together with theorems settling the specification's
claims about them.

Terminal behaviours of the Rust code (`println!` followed by
`process::exit(1)`) are embedded as explicit outcome constructors: a
successful parse returns `ParseOutcome.ok`, an explicit help request
returns `ParseOutcome.help` with the rendered usage text, and each
validation failure returns `ParseOutcome.err` carrying the error kind and
the rendered usage text (the Rust code always prints the usage text on
these paths before exiting).
-/

set_option maxHeartbeats 1000000

namespace Argparse

/-- `Flag` from src/lib.rs: a title, a description, and the ordered list of
option-slot labels (`options`). -/
structure Flag where
  title : String
  description : String
  options : List String
  deriving DecidableEq

/-- `Flag::new()` from src/lib.rs: the empty flag. -/
def Flag.new : Flag :=
  { title := "", description := "", options := [] }

/-- `Argument` from src/lib.rs: a positional argument with title and
description. -/
structure Argument where
  title : String
  description : String
  deriving DecidableEq

/-- `Parser` from src/lib.rs: project title and description plus the
declared flags and arguments, in declaration order. -/
structure Parser where
  project_title : String
  project_description : String
  flags : List Flag
  arguments : List Argument
  deriving DecidableEq

/-- `ParsedArgs` from src/lib.rs: the accumulated `(flag title, option
value)` pairs and the recognized positional-argument titles. -/
structure ParsedArgs where
  flags : List (String × String)
  arguments : List String
  deriving DecidableEq

/-- The error kinds of the terminal failure paths in `Parser::parse`
(each is a `println!` + `process::exit(1)` in the Rust source). -/
inductive ParseError where
  | DuplicateFlag (token : String)
  | UnknownFlag (token : String)
  | FlagTakesNoOption (flagTitle : String)
  | DuplicateArgument (token : String)
  | UnknownArgument (token : String)
  deriving DecidableEq

/-- The observable outcome of a `parse` call: success, an explicit help
request (prints the usage text and exits), or a validation failure (prints
the error and the usage text and exits). -/
inductive ParseOutcome where
  | ok (result : ParsedArgs)
  | help (text : String)
  | err (e : ParseError) (usage : String)
  deriving DecidableEq

/-- ASCII lowercasing of a single character, as done bytewise by Rust's
`to_ascii_lowercase`. -/
def asciiLowerChar (c : Char) : Char :=
  if 'A' ≤ c ∧ c ≤ 'Z' then Char.ofNat (c.toNat + 32) else c

/-- `String::to_ascii_lowercase` on a whole token. -/
def asciiLower (s : String) : String :=
  String.mk (s.data.map asciiLowerChar)

/-- `arg.chars().nth(0) == Some('-')` from `Parser::parse`: the token
starts with the flag marker. -/
def isMarker (s : String) : Bool :=
  s.data.head? == some '-'

/-- `&arg[1..]` on a token whose first character is the one-byte marker:
drop the first character. -/
def stripMarker (s : String) : String :=
  String.mk s.data.tail

/-- `Parser::help` from src/lib.rs, string for string: the banner, then an
" Options:" block when at least one flag is declared, then an
" Arguments:" block when at least one argument is declared. -/
def Parser.help (self : Parser) : String :=
  let flag_str : String :=
    if self.flags.length > 0 then
      (self.flags.foldl (fun acc flag =>
        (acc ++ ("    -" ++ flag.title ++ " "))
          ++ (flag.options.foldl (fun acc2 o => acc2 ++ ("<" ++ o ++ "> ")) "")
          ++ (":\n\t " ++ flag.description ++ "\n")) " Options:\n") ++ "\n"
    else ""
  let args_str : String :=
    if self.arguments.length > 0 then
      self.arguments.foldl (fun acc a =>
        acc ++ ("    " ++ a.title ++ " :\n\t " ++ a.description ++ "\n"))
        " Arguments:\n"
    else ""
  ((self.project_title ++ ", " ++ self.project_description)
    ++ "\nUsage: -h for help:\n\n") ++ flag_str ++ args_str

/-- The `for flag in &self.flags` loop of `Parser::parse` on a marker
token whose lowercased stripped form is `t`: at each declared flag, first
the inner duplicate scan over `used_flags` runs (`arg_to_lower ==
used_flag.title`), then the match test `arg_to_lower == *flag.title`.
Returns the matched flag, `none` when the loop falls through, or the
`DuplicateFlag` failure. -/
def findFlagStep (flags : List Flag) (used : List Flag) (t : String) :
    Except ParseError (Option Flag) :=
  match flags with
  | [] => .ok none
  | f :: rest =>
    if used.any (fun u => u.title == t) then .error (.DuplicateFlag t)
    else if t = f.title then .ok (some f)
    else findFlagStep rest used t

/-- The `for parser_arg in &self.arguments` loop of `Parser::parse` on a
plain token whose lowercased form is `t`: at each declared argument, the
inner duplicate scan over `used_args` runs, then the match test
`parser_arg.title == arg_to_lower`. -/
def findArgStep (pargs : List Argument) (used : List Argument) (t : String) :
    Except ParseError (Option Argument) :=
  match pargs with
  | [] => .ok none
  | a :: rest =>
    if used.any (fun u => u.title == t) then .error (.DuplicateArgument t)
    else if a.title = t then .ok (some a)
    else findArgStep rest used t

/-- The mutable locals of `Parser::parse`, gathered into one state record:
`is_option`, `parsed`, `current_flag`, `used_flags`, `used_args`, and the
`ParsedArgs` accumulator `options`. -/
structure ParseState where
  is_option : Bool
  parsed : Bool
  current_flag : Flag
  used_flags : List Flag
  used_args : List Argument
  options : ParsedArgs
  deriving DecidableEq

/-- `options.flags.push((current_flag.title.clone(), String::new()))` at
the top of the second branch of the loop body. -/
def pushEmpty (st : ParseState) : ParseState :=
  { st with options :=
      { st.options with
        flags := st.options.flags ++ [(st.current_flag.title, "")] } }

/-- The shared tail of the two marker-token branches of `Parser::parse`:
strip the marker, lowercase, run the flag loop; on a match set the current
flag, mark it used, clear `parsed` and set `is_option`; on fall-through
test the help alias `"h"`, else fail with `UnknownFlag`. -/
def handleFlagToken (p : Parser) (st : ParseState) (arg : String) :
    ParseOutcome ⊕ ParseState :=
  match findFlagStep p.flags st.used_flags (asciiLower (stripMarker arg)) with
  | .error e => .inl (.err e p.help)
  | .ok (some f) =>
      .inr { st with
              current_flag := f,
              used_flags := st.used_flags ++ [f],
              parsed := false,
              is_option := true }
  | .ok none =>
      if asciiLower (stripMarker arg) = "h" then .inl (.help p.help)
      else .inl (.err (.UnknownFlag (asciiLower (stripMarker arg))) p.help)

/-- One iteration of the `'args` loop of `Parser::parse`, branching
exactly as the Rust source does on whether the token starts with the
marker and on `is_option`. -/
def parseStep (p : Parser) (st : ParseState) (arg : String) :
    ParseOutcome ⊕ ParseState :=
  match isMarker arg, st.is_option with
  | true, false => handleFlagToken p st arg
  | true, true => handleFlagToken p (pushEmpty st) arg
  | false, true =>
      if st.current_flag.options.length = 0 then
        .inl (.err (.FlagTakesNoOption st.current_flag.title) p.help)
      else
        .inr { st with
                options :=
                  { st.options with
                    flags := st.options.flags
                      ++ [(st.current_flag.title, asciiLower arg)] },
                parsed := true,
                is_option := false }
  | false, false =>
      match findArgStep p.arguments st.used_args (asciiLower arg) with
      | .error e => .inl (.err e p.help)
      | .ok (some a) =>
          .inr { st with
                  used_args := st.used_args ++ [a],
                  options :=
                    { st.options with
                      arguments := st.options.arguments ++ [a.title] } }
      | .ok none => .inl (.err (.UnknownArgument arg) p.help)

/-- The `'args` loop of `Parser::parse` followed by the trailing
`if !parsed` push: run `parseStep` over the tokens, stopping at the first
terminal outcome; at end of input, when `parsed` is false, record the
current flag once more with an empty option value. -/
def parseLoop (p : Parser) (st : ParseState) : List String → ParseOutcome
  | [] =>
    if st.parsed then .ok st.options
    else .ok { st.options with
                flags := st.options.flags ++ [(st.current_flag.title, "")] }
  | arg :: rest =>
    match parseStep p st arg with
    | .inl o => o
    | .inr st2 => parseLoop p st2 rest

/-- The initial values of the mutable locals of `Parser::parse`. -/
def initState : ParseState :=
  { is_option := false, parsed := false, current_flag := Flag.new,
    used_flags := [], used_args := [],
    options := { flags := [], arguments := [] } }

/-- `Parser::parse` on the token sequence that remains after the skipped
invocation-path element. -/
def parseTokens (p : Parser) (tokens : List String) : ParseOutcome :=
  parseLoop p initState tokens

/-- `Parser::parse` on the full argument vector: the first element (the
program path) is skipped by the initial `args.next()`. -/
def Parser.parse (p : Parser) (argv : List String) : ParseOutcome :=
  parseTokens p argv.tail

/-! ### Helper lemmas about the flag-matching loop -/

theorem findFlagStep_some (flags : List Flag) (used : List Flag) (t : String)
    (f : Flag) (h : findFlagStep flags used t = .ok (some f)) :
    f ∈ flags ∧ f.title = t := by
  induction flags with
  | nil => simp [findFlagStep] at h
  | cons g rest ih =>
    rw [findFlagStep] at h
    split at h
    · simp at h
    · split at h
      · rename_i ht
        simp only [Except.ok.injEq, Option.some.injEq] at h
        subst h
        exact ⟨List.mem_cons_self _ _, ht.symm⟩
      · rcases ih h with ⟨hmem, htitle⟩
        exact ⟨List.mem_cons_of_mem _ hmem, htitle⟩

theorem findFlagStep_some_nodup (flags : List Flag) (used : List Flag)
    (t : String) (f : Flag) (h : findFlagStep flags used t = .ok (some f)) :
    ∀ u ∈ used, u.title ≠ t := by
  cases flags with
  | nil => simp [findFlagStep] at h
  | cons g rest =>
    rw [findFlagStep] at h
    split at h
    · simp at h
    · rename_i hdup
      simp only [List.any_eq_true, beq_iff_eq, not_exists, not_and] at hdup
      exact hdup

theorem findFlagStep_none (flags : List Flag) (used : List Flag) (t : String)
    (hused : ∀ u ∈ used, u.title ≠ t) (hflags : ∀ f ∈ flags, f.title ≠ t) :
    findFlagStep flags used t = .ok none := by
  induction flags with
  | nil => rfl
  | cons g rest ih =>
    rw [findFlagStep]
    rw [if_neg, if_neg]
    · exact ih fun f hf => hflags f (List.mem_cons_of_mem _ hf)
    · exact fun hEq => hflags g (List.mem_cons_self _ _) hEq.symm
    · simp only [List.any_eq_true, beq_iff_eq, not_exists, not_and]
      exact hused

theorem findFlagStep_dup (flags : List Flag) (used : List Flag) (t : String)
    (hne : flags ≠ []) (hdup : ∃ u ∈ used, u.title = t) :
    findFlagStep flags used t = .error (.DuplicateFlag t) := by
  cases flags with
  | nil => exact absurd rfl hne
  | cons g rest =>
    rw [findFlagStep, if_pos]
    simp only [List.any_eq_true, beq_iff_eq]
    exact hdup

/-! ### Helper lemmas about one step of the loop -/

theorem handleFlagToken_some (p : Parser) (st : ParseState) (arg : String)
    (f : Flag)
    (h : findFlagStep p.flags st.used_flags (asciiLower (stripMarker arg))
      = .ok (some f)) :
    handleFlagToken p st arg =
      .inr { st with
              current_flag := f,
              used_flags := st.used_flags ++ [f],
              parsed := false,
              is_option := true } := by
  unfold handleFlagToken
  rw [h]

theorem handleFlagToken_inr (p : Parser) (st : ParseState) (arg : String)
    (st2 : ParseState) (h : handleFlagToken p st arg = .inr st2) :
    ∃ f, findFlagStep p.flags st.used_flags (asciiLower (stripMarker arg))
        = .ok (some f)
      ∧ st2 = { st with
                  current_flag := f,
                  used_flags := st.used_flags ++ [f],
                  parsed := false,
                  is_option := true } := by
  unfold handleFlagToken at h
  split at h
  · simp at h
  · rename_i f hf
    refine ⟨f, hf, ?_⟩
    simp only [Sum.inr.injEq] at h
    exact h.symm
  · split at h <;> simp at h

theorem handleFlagToken_inl_no_ok (p : Parser) (st : ParseState)
    (arg : String) (o : ParseOutcome) (r : ParsedArgs)
    (h : handleFlagToken p st arg = .inl o) : o ≠ .ok r := by
  unfold handleFlagToken at h
  split at h
  · simp only [Sum.inl.injEq] at h
    subst h
    simp
  · simp at h
  · split at h <;>
    · simp only [Sum.inl.injEq] at h
      subst h
      simp

theorem parseStep_marker_noopt (p : Parser) (st : ParseState) (arg : String)
    (hm : isMarker arg = true) (ho : st.is_option = false) :
    parseStep p st arg = handleFlagToken p st arg := by
  unfold parseStep
  rw [hm, ho]

theorem parseStep_marker_opt (p : Parser) (st : ParseState) (arg : String)
    (hm : isMarker arg = true) (ho : st.is_option = true) :
    parseStep p st arg = handleFlagToken p (pushEmpty st) arg := by
  unfold parseStep
  rw [hm, ho]

theorem parseStep_value_zero (p : Parser) (st : ParseState) (arg : String)
    (hm : isMarker arg = false) (ho : st.is_option = true)
    (hz : st.current_flag.options.length = 0) :
    parseStep p st arg
      = .inl (.err (.FlagTakesNoOption st.current_flag.title) p.help) := by
  unfold parseStep
  rw [hm, ho]
  exact if_pos hz

theorem parseStep_value_pos (p : Parser) (st : ParseState) (arg : String)
    (hm : isMarker arg = false) (ho : st.is_option = true)
    (hz : st.current_flag.options.length ≠ 0) :
    parseStep p st arg
      = .inr { st with
                options :=
                  { st.options with
                    flags := st.options.flags
                      ++ [(st.current_flag.title, asciiLower arg)] },
                parsed := true,
                is_option := false } := by
  unfold parseStep
  rw [hm, ho]
  exact if_neg hz

theorem parseStep_plain (p : Parser) (st : ParseState) (arg : String)
    (hm : isMarker arg = false) (ho : st.is_option = false) :
    parseStep p st arg
      = match findArgStep p.arguments st.used_args (asciiLower arg) with
        | .error e => .inl (.err e p.help)
        | .ok (some a) =>
            .inr { st with
                    used_args := st.used_args ++ [a],
                    options :=
                      { st.options with
                        arguments := st.options.arguments ++ [a.title] } }
        | .ok none => .inl (.err (.UnknownArgument arg) p.help) := by
  unfold parseStep
  rw [hm, ho]

theorem parseStep_inl_no_ok (p : Parser) (st : ParseState) (arg : String)
    (o : ParseOutcome) (r : ParsedArgs)
    (h : parseStep p st arg = .inl o) : o ≠ .ok r := by
  cases hm : isMarker arg <;> cases ho : st.is_option
  · rw [parseStep_plain p st arg hm ho] at h
    split at h
    · simp only [Sum.inl.injEq] at h
      subst h
      simp
    · simp at h
    · simp only [Sum.inl.injEq] at h
      subst h
      simp
  · by_cases hz : st.current_flag.options.length = 0
    · rw [parseStep_value_zero p st arg hm ho hz] at h
      simp only [Sum.inl.injEq] at h
      subst h
      simp
    · rw [parseStep_value_pos p st arg hm ho hz] at h
      simp at h
  · rw [parseStep_marker_noopt p st arg hm ho] at h
    exact handleFlagToken_inl_no_ok p st arg o r h
  · rw [parseStep_marker_opt p st arg hm ho] at h
    exact handleFlagToken_inl_no_ok p (pushEmpty st) arg o r h

theorem parseStep_inr_flags_mono (p : Parser) (st : ParseState)
    (arg : String) (st2 : ParseState) (h : parseStep p st arg = .inr st2) :
    ∀ x ∈ st.options.flags, x ∈ st2.options.flags := by
  intro x hx
  cases hm : isMarker arg <;> cases ho : st.is_option
  · rw [parseStep_plain p st arg hm ho] at h
    split at h
    · simp at h
    · simp only [Sum.inr.injEq] at h
      subst h
      exact hx
    · simp at h
  · by_cases hz : st.current_flag.options.length = 0
    · rw [parseStep_value_zero p st arg hm ho hz] at h
      simp at h
    · rw [parseStep_value_pos p st arg hm ho hz] at h
      simp only [Sum.inr.injEq] at h
      subst h
      exact List.mem_append_left _ hx
  · rw [parseStep_marker_noopt p st arg hm ho] at h
    rcases handleFlagToken_inr p st arg st2 h with ⟨f, _, hst2⟩
    subst hst2
    exact hx
  · rw [parseStep_marker_opt p st arg hm ho] at h
    rcases handleFlagToken_inr p (pushEmpty st) arg st2 h with ⟨f, _, hst2⟩
    subst hst2
    exact List.mem_append_left _ hx

theorem parseStep_inr_used_mono (p : Parser) (st : ParseState)
    (arg : String) (st2 : ParseState) (h : parseStep p st arg = .inr st2) :
    ∀ u ∈ st.used_flags, u ∈ st2.used_flags := by
  intro u hu
  cases hm : isMarker arg <;> cases ho : st.is_option
  · rw [parseStep_plain p st arg hm ho] at h
    split at h
    · simp at h
    · simp only [Sum.inr.injEq] at h
      subst h
      exact hu
    · simp at h
  · by_cases hz : st.current_flag.options.length = 0
    · rw [parseStep_value_zero p st arg hm ho hz] at h
      simp at h
    · rw [parseStep_value_pos p st arg hm ho hz] at h
      simp only [Sum.inr.injEq] at h
      subst h
      exact hu
  · rw [parseStep_marker_noopt p st arg hm ho] at h
    rcases handleFlagToken_inr p st arg st2 h with ⟨f, _, hst2⟩
    subst hst2
    exact List.mem_append_left _ hu
  · rw [parseStep_marker_opt p st arg hm ho] at h
    rcases handleFlagToken_inr p (pushEmpty st) arg st2 h with ⟨f, _, hst2⟩
    subst hst2
    exact List.mem_append_left _ hu

/-! ### Helper lemmas about the main loop -/

theorem parseLoop_nil_parsed (p : Parser) (st : ParseState)
    (h : st.parsed = true) : parseLoop p st [] = .ok st.options := by
  unfold parseLoop
  rw [h]
  rfl

theorem parseLoop_nil_unparsed (p : Parser) (st : ParseState)
    (h : st.parsed = false) :
    parseLoop p st []
      = .ok { st.options with
                flags := st.options.flags
                  ++ [(st.current_flag.title, "")] } := by
  unfold parseLoop
  rw [h]
  rfl

theorem parseLoop_cons_inl (p : Parser) (st : ParseState) (arg : String)
    (rest : List String) (o : ParseOutcome)
    (h : parseStep p st arg = .inl o) :
    parseLoop p st (arg :: rest) = o := by
  have hdef : parseLoop p st (arg :: rest)
      = match parseStep p st arg with
        | .inl o2 => o2
        | .inr st2 => parseLoop p st2 rest := rfl
  rw [hdef, h]

theorem parseLoop_cons_inr (p : Parser) (st : ParseState) (arg : String)
    (rest : List String) (st2 : ParseState)
    (h : parseStep p st arg = .inr st2) :
    parseLoop p st (arg :: rest) = parseLoop p st2 rest := by
  have hdef : parseLoop p st (arg :: rest)
      = match parseStep p st arg with
        | .inl o2 => o2
        | .inr st3 => parseLoop p st3 rest := rfl
  rw [hdef, h]

theorem parseLoop_ok_flags_mono (p : Parser) :
    ∀ (tokens : List String) (st : ParseState) (r : ParsedArgs),
      parseLoop p st tokens = .ok r → ∀ x ∈ st.options.flags, x ∈ r.flags := by
  intro tokens
  induction tokens with
  | nil =>
    intro st r h x hx
    cases hp : st.parsed
    · rw [parseLoop_nil_unparsed p st hp] at h
      simp only [ParseOutcome.ok.injEq] at h
      subst h
      exact List.mem_append_left _ hx
    · rw [parseLoop_nil_parsed p st hp] at h
      simp only [ParseOutcome.ok.injEq] at h
      subst h
      exact hx
  | cons arg rest ih =>
    intro st r h x hx
    cases hstep : parseStep p st arg with
    | inl o =>
      rw [parseLoop_cons_inl p st arg rest o hstep] at h
      exact absurd h (parseStep_inl_no_ok p st arg o r hstep)
    | inr st2 =>
      rw [parseLoop_cons_inr p st arg rest st2 hstep] at h
      exact ih st2 r h x (parseStep_inr_flags_mono p st arg st2 hstep x hx)

theorem parseLoop_pending (p : Parser) :
    ∀ (tokens : List String) (st : ParseState) (r : ParsedArgs),
      st.is_option = true → st.parsed = false →
      parseLoop p st tokens = .ok r →
      st.current_flag.title ∈ r.flags.map Prod.fst := by
  intro tokens
  induction tokens with
  | nil =>
    intro st r _ hp h
    rw [parseLoop_nil_unparsed p st hp] at h
    simp only [ParseOutcome.ok.injEq] at h
    subst h
    simp
  | cons arg rest ih =>
    intro st r ho hp h
    cases hstep : parseStep p st arg with
    | inl o =>
      rw [parseLoop_cons_inl p st arg rest o hstep] at h
      exact absurd h (parseStep_inl_no_ok p st arg o r hstep)
    | inr st2 =>
      rw [parseLoop_cons_inr p st arg rest st2 hstep] at h
      cases hm : isMarker arg with
      | true =>
        rw [parseStep_marker_opt p st arg hm ho] at hstep
        rcases handleFlagToken_inr p (pushEmpty st) arg st2 hstep
          with ⟨f, _, hst2⟩
        have hmem : (st.current_flag.title, "") ∈ st2.options.flags := by
          subst hst2
          simp [pushEmpty]
        have := parseLoop_ok_flags_mono p rest st2 r h _ hmem
        exact List.mem_map.mpr ⟨_, this, rfl⟩
      | false =>
        by_cases hz : st.current_flag.options.length = 0
        · rw [parseStep_value_zero p st arg hm ho hz] at hstep
          simp at hstep
        · rw [parseStep_value_pos p st arg hm ho hz] at hstep
          simp only [Sum.inr.injEq] at hstep
          have hmem : (st.current_flag.title, asciiLower arg)
              ∈ st2.options.flags := by
            subst hstep
            simp
          have := parseLoop_ok_flags_mono p rest st2 r h _ hmem
          exact List.mem_map.mpr ⟨_, this, rfl⟩

theorem parseLoop_marker_covered (p : Parser) :
    ∀ (tokens : List String) (st : ParseState) (r : ParsedArgs) (t : String),
      parseLoop p st tokens = .ok r → t ∈ tokens → isMarker t = true →
      asciiLower (stripMarker t) ∈ r.flags.map Prod.fst := by
  intro tokens
  induction tokens with
  | nil =>
    intro st r t _ ht
    simp at ht
  | cons arg rest ih =>
    intro st r t h hmem hmk
    cases hstep : parseStep p st arg with
    | inl o =>
      rw [parseLoop_cons_inl p st arg rest o hstep] at h
      exact absurd h (parseStep_inl_no_ok p st arg o r hstep)
    | inr st2 =>
      rw [parseLoop_cons_inr p st arg rest st2 hstep] at h
      rcases List.mem_cons.mp hmem with heq | hrest
      · subst heq
        cases ho : st.is_option with
        | false =>
          rw [parseStep_marker_noopt p st t hmk ho] at hstep
          rcases handleFlagToken_inr p st t st2 hstep with ⟨f, hf, hst2⟩
          have htitle := (findFlagStep_some _ _ _ _ hf).2
          have hcur : st2.current_flag = f := by
            subst hst2
            rfl
          have hopt : st2.is_option = true := by
            subst hst2
            rfl
          have hpar : st2.parsed = false := by
            subst hst2
            rfl
          have := parseLoop_pending p rest st2 r hopt hpar h
          rw [hcur, htitle] at this
          exact this
        | true =>
          rw [parseStep_marker_opt p st t hmk ho] at hstep
          rcases handleFlagToken_inr p (pushEmpty st) t st2 hstep
            with ⟨f, hf, hst2⟩
          have htitle := (findFlagStep_some _ _ _ _ hf).2
          have hcur : st2.current_flag = f := by
            subst hst2
            rfl
          have hopt : st2.is_option = true := by
            subst hst2
            rfl
          have hpar : st2.parsed = false := by
            subst hst2
            rfl
          have := parseLoop_pending p rest st2 r hopt hpar h
          rw [hcur, htitle] at this
          exact this
      · exact ih st2 r t h hrest hmk

theorem parseLoop_dup_doomed (p : Parser) :
    ∀ (tokens : List String) (st : ParseState) (t : String) (r : ParsedArgs),
      t ∈ tokens → isMarker t = true →
      (∃ u ∈ st.used_flags, u.title = asciiLower (stripMarker t)) →
      parseLoop p st tokens ≠ .ok r := by
  intro tokens
  induction tokens with
  | nil =>
    intro st t r ht
    simp at ht
  | cons arg rest ih =>
    intro st t r hmem hmk hdup h
    cases hstep : parseStep p st arg with
    | inl o =>
      rw [parseLoop_cons_inl p st arg rest o hstep] at h
      exact absurd h (parseStep_inl_no_ok p st arg o r hstep)
    | inr st2 =>
      rw [parseLoop_cons_inr p st arg rest st2 hstep] at h
      rcases List.mem_cons.mp hmem with heq | hrest
      · subst heq
        cases ho : st.is_option with
        | false =>
          rw [parseStep_marker_noopt p st t hmk ho] at hstep
          rcases handleFlagToken_inr p st t st2 hstep with ⟨f, hf, _⟩
          rcases hdup with ⟨u, hu, hut⟩
          exact findFlagStep_some_nodup _ _ _ _ hf u hu hut
        | true =>
          rw [parseStep_marker_opt p st t hmk ho] at hstep
          rcases handleFlagToken_inr p (pushEmpty st) t st2 hstep
            with ⟨f, hf, _⟩
          rcases hdup with ⟨u, hu, hut⟩
          exact findFlagStep_some_nodup _ _ _ _ hf u hu hut
      · rcases hdup with ⟨u, hu, hut⟩
        exact ih st2 t r hrest hmk
          ⟨u, parseStep_inr_used_mono p st arg st2 hstep u hu, hut⟩ h

theorem parseLoop_sublist_dup (p : Parser) :
    ∀ (tokens : List String) (st : ParseState) (t1 t2 : String)
      (r : ParsedArgs),
      List.Sublist [t1, t2] tokens →
      isMarker t1 = true → isMarker t2 = true →
      asciiLower (stripMarker t1) = asciiLower (stripMarker t2) →
      parseLoop p st tokens ≠ .ok r := by
  intro tokens
  induction tokens with
  | nil =>
    intro st t1 t2 r hsub
    simp at hsub
  | cons arg rest ih =>
    intro st t1 t2 r hsub hm1 hm2 heq h
    cases hstep : parseStep p st arg with
    | inl o =>
      rw [parseLoop_cons_inl p st arg rest o hstep] at h
      exact absurd h (parseStep_inl_no_ok p st arg o r hstep)
    | inr st2 =>
      rw [parseLoop_cons_inr p st arg rest st2 hstep] at h
      cases hsub with
      | cons _ hsub2 =>
        exact ih st2 t1 t2 r hsub2 hm1 hm2 heq h
      | cons₂ _ hsub2 =>
        have ht2 : t2 ∈ rest := List.singleton_sublist.mp hsub2
        cases ho : st.is_option with
        | false =>
          rw [parseStep_marker_noopt p st arg hm1 ho] at hstep
          rcases handleFlagToken_inr p st arg st2 hstep with ⟨f, hf, hst2⟩
          have htitle := (findFlagStep_some _ _ _ _ hf).2
          have hfmem : f ∈ st2.used_flags := by
            subst hst2
            simp
          exact parseLoop_dup_doomed p rest st2 t2 r ht2 hm2
            ⟨f, hfmem, by rw [htitle, heq]⟩ h
        | true =>
          rw [parseStep_marker_opt p st arg hm1 ho] at hstep
          rcases handleFlagToken_inr p (pushEmpty st) arg st2 hstep
            with ⟨f, hf, hst2⟩
          have htitle := (findFlagStep_some _ _ _ _ hf).2
          have hfmem : f ∈ st2.used_flags := by
            subst hst2
            simp [pushEmpty]
          exact parseLoop_dup_doomed p rest st2 t2 r ht2 hm2
            ⟨f, hfmem, by rw [htitle, heq]⟩ h

theorem parseLoop_no_marker (p : Parser) :
    ∀ (tokens : List String) (st : ParseState) (r : ParsedArgs),
      st.is_option = false → st.parsed = false →
      (∀ t ∈ tokens, isMarker t = false) →
      parseLoop p st tokens = .ok r →
      r.flags = st.options.flags ++ [(st.current_flag.title, "")] := by
  intro tokens
  induction tokens with
  | nil =>
    intro st r _ hp _ h
    rw [parseLoop_nil_unparsed p st hp] at h
    simp only [ParseOutcome.ok.injEq] at h
    subst h
    rfl
  | cons arg rest ih =>
    intro st r ho hp hnm h
    have hm : isMarker arg = false := hnm arg (List.mem_cons_self _ _)
    cases hstep : parseStep p st arg with
    | inl o =>
      rw [parseLoop_cons_inl p st arg rest o hstep] at h
      exact absurd h (parseStep_inl_no_ok p st arg o r hstep)
    | inr st2 =>
      rw [parseLoop_cons_inr p st arg rest st2 hstep] at h
      rw [parseStep_plain p st arg hm ho] at hstep
      split at hstep
      · simp at hstep
      · rename_i a _
        simp only [Sum.inr.injEq] at hstep
        subst hstep
        exact ih
          { st with
            used_args := st.used_args ++ [a],
            options :=
              { st.options with
                arguments := st.options.arguments ++ [a.title] } }
          r ho hp (fun t ht => hnm t (List.mem_cons_of_mem _ ht)) h
      · simp at hstep

theorem findFlagStep_match_exists (flags : List Flag) (used : List Flag)
    (t : String) (f : Flag) (hused : ∀ u ∈ used, u.title ≠ t)
    (hmem : f ∈ flags) (htitle : f.title = t) :
    ∃ g, findFlagStep flags used t = .ok (some g) ∧ g.title = t := by
  induction flags with
  | nil => simp at hmem
  | cons g rest ih =>
    rw [findFlagStep]
    rw [if_neg]
    · by_cases hg : t = g.title
      · exact ⟨g, by rw [if_pos hg], hg.symm⟩
      · rw [if_neg hg]
        rcases List.mem_cons.mp hmem with heq | hmem2
        · subst heq
          exact absurd htitle.symm hg
        · exact ih hmem2
    · simp only [List.any_eq_true, beq_iff_eq, not_exists, not_and]
      exact hused

/-! ### Concrete specifications used as inputs for the claims -/

/-- The flag `a` with one option slot, from the crate's doc example. -/
def flagA : Flag := ⟨"a", "This is the a flag", ["some"]⟩

/-- The flag `d` with zero option slots, from the crate's doc example. -/
def flagD : Flag := ⟨"d", "This is the d flag", []⟩

/-- The positional argument `foo`, from the crate's doc example. -/
def argFoo : Argument := ⟨"foo", "This is the foo argument"⟩

/-- The scenario spec of claim C1: flag `a` (one slot), flag `d` (zero
slots), positional argument `foo`. -/
def spec1 : Parser := ⟨"Test Parser", "Tests arguments", [flagA, flagD], [argFoo]⟩

/-- A spec that declares a flag whose title is the help alias `h`. -/
def spec2h : Parser := ⟨"Test Parser", "Tests arguments", [⟨"h", "the h flag", []⟩], []⟩

/-- A spec with one ordinary flag and no flag titled `h`. -/
def spec2w : Parser := ⟨"Test Parser", "Tests arguments", [flagA], []⟩

/-- A spec with the zero-slot flag `d` and the argument `foo`. -/
def spec3 : Parser := ⟨"Test Parser", "Tests arguments", [flagD], [argFoo]⟩

/-- A spec whose only flag is declared with an uppercase title. -/
def spec4 : Parser := ⟨"Test Parser", "Tests arguments", [⟨"A", "This is the A flag", ["some"]⟩], []⟩

/-- A lowercase-titled flag used to exhibit a successful match. -/
def flagLowerA : Flag := ⟨"a", "lower title flag", ["some"]⟩

/-- A spec with only the zero-slot flag `d`. -/
def spec5 : Parser := ⟨"Test Parser", "Tests arguments", [flagD], []⟩

/-- The machine state of `spec5` right after the token `-d` has matched:
`is_option` set, `parsed` cleared, `d` current and used, nothing recorded. -/
def state5 : ParseState := ⟨true, false, flagD, [flagD], [], ⟨[], []⟩⟩

/-! ### Claim C1 -/

/-- Claim C1, counterexample: on the spec with flag `a` (one slot), flag
`d` (zero slots) and argument `foo`, the input
`["-a", "some", "-d", "foo"]` does not succeed as the claim states:
matching `-d` sets `is_option`, so the following non-marker token `foo`
hits the zero-slot check and the parse terminates with the
`FlagTakesNoOption` failure, paired with the usage text. -/
theorem claim1_counterexample :
    parseTokens spec1 ["-a", "some", "-d", "foo"]
      = .err (.FlagTakesNoOption "d") spec1.help := by
  rfl

/-- Claim C1, amended: the input `["-a", "some", "-d", "foo"]` fails
terminally with `FlagTakesNoOption` on `d`; the claimed result — flags
`[("a","some"), ("d","")]` and arguments `["foo"]` — is instead produced
when the positional token precedes the zero-slot flag, as in
`["-a", "some", "foo", "-d"]`. -/
theorem claim1_amended_parse :
    parseTokens spec1 ["-a", "some", "-d", "foo"]
        = .err (.FlagTakesNoOption "d") spec1.help
      ∧ parseTokens spec1 ["-a", "some", "foo", "-d"]
        = .ok ⟨[("a", "some"), ("d", "")], ["foo"]⟩ := by
  exact ⟨rfl, rfl⟩

/-! ### Claim C2 -/

/-- Claim C2, counterexample: the declared flags are consulted before the
help alias, so on a spec that declares a flag titled `h` the input
`["-h"]` matches that flag and the parse succeeds — no help outcome and
no usage text are produced. -/
theorem claim2_counterexample :
    parseTokens spec2h ["-h"] = .ok ⟨[("h", "")], []⟩ := by
  rfl

/-- Claim C2, amended: for every spec in which no declared flag is titled
`h`, parsing the single token `-h` produces the rendered usage text with
the help-requested terminal outcome, which is a constructor distinct from
every error outcome. -/
theorem claim2_help_short_circuit (p : Parser)
    (hh : ∀ f ∈ p.flags, f.title ≠ "h") :
    parseTokens p ["-h"] = .help p.help := by
  have hm : isMarker "-h" = true := rfl
  have ho : initState.is_option = false := rfl
  have hstrip : asciiLower (stripMarker "-h") = "h" := rfl
  have hnone : findFlagStep p.flags initState.used_flags
      (asciiLower (stripMarker "-h")) = .ok none := by
    rw [hstrip]
    exact findFlagStep_none _ _ _ (by intro u hu; simp [initState] at hu) hh
  have hstep : parseStep p initState "-h" = .inl (.help p.help) := by
    rw [parseStep_marker_noopt p initState "-h" hm ho]
    unfold handleFlagToken
    rw [hnone, hstrip]
    simp
  exact parseLoop_cons_inl p initState "-h" [] _ hstep

/-- Claim C2, witness: on the concrete spec with only the flag `a`,
parsing `["-h"]` yields the help outcome carrying the rendered usage
text. -/
theorem claim2_witness :
    parseTokens spec2w ["-h"] = .help spec2w.help :=
  claim2_help_short_circuit spec2w (by decide)

/-! ### Claim C3 -/

/-- Claim C3, counterexample: on the spec with zero-slot flag `d` and
argument `foo`, the input `["-d", "foo"]` does not treat `foo` as a
positional argument: matching `d` leaves the machine awaiting an option,
and the following non-marker token terminates the parse with
`FlagTakesNoOption`. -/
theorem claim3_counterexample :
    parseTokens spec3 ["-d", "foo"]
      = .err (.FlagTakesNoOption "d") spec3.help := by
  rfl

/-- Claim C3, amended: when a marker token matches a declared flag whose
option-slot list is empty, the machine transitions to the awaiting-option
state exactly as for any other flag and the flag is not recorded
immediately; if the input ends there the flag is recorded with an empty
option value, while a directly following non-marker token terminates the
parse with `FlagTakesNoOption` instead of being classified as a
positional argument. -/
theorem claim3_zero_slot_behaviour (p : Parser) (st : ParseState)
    (t u : String) (rest : List String) (f : Flag)
    (ho : st.is_option = false) (hm : isMarker t = true)
    (hf : findFlagStep p.flags st.used_flags (asciiLower (stripMarker t))
      = .ok (some f))
    (hz : f.options = []) (hu : isMarker u = false) :
    parseLoop p st [t]
        = .ok ⟨st.options.flags ++ [(f.title, "")], st.options.arguments⟩
      ∧ parseLoop p st (t :: u :: rest)
        = .err (.FlagTakesNoOption f.title) p.help := by
  have hstep : parseStep p st t
      = .inr { st with
                current_flag := f,
                used_flags := st.used_flags ++ [f],
                parsed := false,
                is_option := true } := by
    rw [parseStep_marker_noopt p st t hm ho]
    exact handleFlagToken_some p st t f hf
  constructor
  · rw [parseLoop_cons_inr p st t [] _ hstep]
    rw [parseLoop_nil_unparsed p _ rfl]
  · rw [parseLoop_cons_inr p st t (u :: rest) _ hstep]
    have hz2 : ({ st with
                  current_flag := f,
                  used_flags := st.used_flags ++ [f],
                  parsed := false,
                  is_option := true } : ParseState).current_flag.options.length
        = 0 := by
      simp [hz]
    rw [parseLoop_cons_inl p _ u rest _ (parseStep_value_zero p _ u hu rfl hz2)]

/-- Claim C3, witness: on the spec with zero-slot flag `d` and argument
`foo`, the token `-d` alone succeeds with `d` recorded against an empty
value, while `["-d", "foo"]` fails with `FlagTakesNoOption`. -/
theorem claim3_witness :
    parseLoop spec3 initState ["-d"] = .ok ⟨[("d", "")], []⟩
      ∧ parseLoop spec3 initState ["-d", "foo"]
        = .err (.FlagTakesNoOption "d") spec3.help :=
  claim3_zero_slot_behaviour spec3 initState "-d" "foo" [] flagD
    rfl rfl rfl rfl rfl

/-! ### Claim C4 -/

/-- Claim C4, counterexample: on the spec whose only flag is declared
with the uppercase title `A`, the input token `-A` is lowercased to `a`
and compared against the unmodified declared title `A`, so it never
matches and the parse fails with `UnknownFlag` on `a` — the declared side
is not lowercase-normalized. -/
theorem claim4_counterexample :
    parseTokens spec4 ["-A"] = .err (.UnknownFlag "a") spec4.help := by
  rfl

/-- Claim C4, amended: the flag loop compares the lowercased
marker-stripped input token against each declared title exactly as
written: a match returns a declared flag whose title literally equals the
lowercased token, and conversely when some declared flag's title equals
the lowercased token (and no duplicate fires) a match is found. Only the
input side is lowercase-normalized, so a flag declared with uppercase
letters in its title can never be matched. -/
theorem claim4_match_characterisation (flags used : List Flag) (t : String)
    (f : Flag) :
    (findFlagStep flags used t = .ok (some f) → f ∈ flags ∧ f.title = t)
      ∧ ((∀ u ∈ used, u.title ≠ t) → f ∈ flags → f.title = t →
          ∃ g, findFlagStep flags used t = .ok (some g) ∧ g.title = t) := by
  exact ⟨findFlagStep_some flags used t f,
    fun hused hmem htitle =>
      findFlagStep_match_exists flags used t f hused hmem htitle⟩

/-- Claim C4, witness: the lowercase-titled flag `a` is matched by the
lowercased token `a`, and any match on that singleton list returns it
with the literal title. -/
theorem claim4_witness :
    (flagLowerA ∈ [flagLowerA] ∧ flagLowerA.title = "a")
      ∧ ∃ g, findFlagStep [flagLowerA] [] "a" = .ok (some g)
          ∧ g.title = "a" :=
  ⟨(claim4_match_characterisation [flagLowerA] [] "a" flagLowerA).1 rfl,
    (claim4_match_characterisation [flagLowerA] [] "a" flagLowerA).2
      (by simp) (by simp) rfl⟩

/-! ### Claim C5 -/

/-- Claim C5: whenever the machine is awaiting an option for a current
flag that declares zero option slots and the next token does not start
with the marker, the parse terminates with the `FlagTakesNoOption`
failure for that flag, paired with the rendered usage text. -/
theorem claim5_flag_takes_no_option (p : Parser) (st : ParseState)
    (t : String) (rest : List String) (ho : st.is_option = true)
    (hz : st.current_flag.options = []) (hm : isMarker t = false) :
    parseLoop p st (t :: rest)
      = .err (.FlagTakesNoOption st.current_flag.title) p.help :=
  parseLoop_cons_inl p st t rest _
    (parseStep_value_zero p st t hm ho (by rw [hz]; rfl))

/-- Claim C5, witness: in the state reached after `-d` on the spec whose
flag `d` has zero slots, the non-marker token `foo` produces the
`FlagTakesNoOption` failure with the usage text. -/
theorem claim5_witness :
    parseLoop spec5 state5 ["foo"]
      = .err (.FlagTakesNoOption "d") spec5.help :=
  claim5_flag_takes_no_option spec5 state5 "foo" [] rfl rfl rfl

/-! ### Claim C6 -/

/-- A spec with only the zero-slot flag `d`, for claim C6. -/
def spec6 : Parser := ⟨"Test Parser", "Tests arguments", [flagD], []⟩

/-- The machine state of `spec6` right after the token `-d` has matched. -/
def state6 : ParseState := ⟨true, false, flagD, [flagD], [], ⟨[], []⟩⟩

/-- Claim C6: when the token stream ends with `parsed` still false — in
particular whenever a flag was matched and no option value was recorded
for it during that cycle — the current flag is recorded one final time
with an empty option value; consequently, on every successful parse,
every marker token of the input contributes its (lowercased, stripped)
flag title to the returned flags list at least once, even when the flag
is the last token. -/
theorem claim6_used_flags_recorded :
    (∀ (p : Parser) (st : ParseState), st.parsed = false →
        parseLoop p st []
          = .ok ⟨st.options.flags ++ [(st.current_flag.title, "")],
                  st.options.arguments⟩)
      ∧ (∀ (p : Parser) (tokens : List String) (r : ParsedArgs) (t : String),
          parseTokens p tokens = .ok r → t ∈ tokens → isMarker t = true →
          asciiLower (stripMarker t) ∈ r.flags.map Prod.fst) :=
  ⟨fun p st hp => by rw [parseLoop_nil_unparsed p st hp],
    fun p tokens r t h ht hm =>
      parseLoop_marker_covered p tokens initState r t h ht hm⟩

/-- Claim C6, witness: on the spec with only flag `d`, ending the input
right after `-d` records `("d", "")`, and on the full parse of `["-d"]`
the title `d` indeed appears among the returned flag titles. -/
theorem claim6_witness :
    parseLoop spec6 state6 [] = .ok ⟨[("d", "")], []⟩
      ∧ asciiLower (stripMarker "-d")
          ∈ (ParsedArgs.mk [("d", "")] []).flags.map Prod.fst :=
  ⟨claim6_used_flags_recorded.1 spec6 state6 rfl,
    claim6_used_flags_recorded.2 spec6 ["-d"] ⟨[("d", "")], []⟩ "-d"
      rfl (by simp) rfl⟩

/-! ### Claim C7 -/

/-- A spec with only the zero-slot flag `d`, for claim C7's
counterexample. -/
def spec7 : Parser := ⟨"Test Parser", "Tests arguments", [flagD], []⟩

/-- A spec with only the one-slot flag `a`, for claim C7's witness. -/
def spec7w : Parser := ⟨"Test Parser", "Tests arguments", [flagA], []⟩

/-- Claim C7, counterexample: the input `["-d", "x", "-d"]` supplies the
declared flag `d` twice, yet the parse fails with `FlagTakesNoOption` on
the intervening token `x` — an earlier terminal failure preempts the
duplicate check, so the outcome is not `DuplicateFlag`. -/
theorem claim7_counterexample :
    parseTokens spec7 ["-d", "x", "-d"]
      = .err (.FlagTakesNoOption "d") spec7.help := by
  rfl

/-- Claim C7, amended: whenever two marker tokens of the input carry the
same lowercased stripped title, the parse never succeeds, regardless of
where the two occurrences appear; it fails with `DuplicateFlag` when the
second occurrence is reached, but an earlier terminal outcome (another
failure, or a help request) may preempt that. -/
theorem claim7_duplicate_never_ok (p : Parser) (tokens : List String)
    (t1 t2 : String) (hsub : List.Sublist [t1, t2] tokens)
    (hm1 : isMarker t1 = true) (hm2 : isMarker t2 = true)
    (heq : asciiLower (stripMarker t1) = asciiLower (stripMarker t2)) :
    ¬ ∃ r, parseTokens p tokens = .ok r := by
  rintro ⟨r, h⟩
  exact parseLoop_sublist_dup p tokens initState t1 t2 r hsub hm1 hm2 heq h

/-- Claim C7, witness: on the spec with the one-slot flag `a`, the input
`["-a", "-a"]` never parses successfully. -/
theorem claim7_witness :
    ¬ ∃ r, parseTokens spec7w ["-a", "-a"] = .ok r :=
  claim7_duplicate_never_ok spec7w ["-a", "-a"] "-a" "-a"
    (List.Sublist.refl _) rfl rfl rfl

/-! ### Claim C8 -/

/-- A spec with no flags and the argument `foo`, for claim C8's
counterexample. -/
def spec8 : Parser := ⟨"Test Parser", "Tests arguments", [], [argFoo]⟩

/-- A spec with one nonempty-titled flag, for claim C8's witness. -/
def spec8w : Parser := ⟨"Test Parser", "Tests arguments", [⟨"x", "The x flag", ["v"]⟩], []⟩

/-- Claim C8, counterexample: on a spec with no flags and the argument
`foo`, the bare marker token `-` is not routed to the positional-argument
path; it enters the flag path, its marker is stripped leaving the empty
string, and the parse fails with `UnknownFlag` on the empty string rather
than with any argument-related outcome. -/
theorem claim8_counterexample :
    parseTokens spec8 ["-"] = .err (.UnknownFlag "") spec8.help := by
  rfl

/-- Claim C8, amended: a token consisting solely of the marker character
is classified by the flag path — the marker is stripped, leaving the
empty string, which is matched against the declared flag titles; on every
spec in which no flag has an empty title, this fails with `UnknownFlag`
on the empty string. -/
theorem claim8_bare_marker_is_flag (p : Parser)
    (hne : ∀ f ∈ p.flags, f.title ≠ "") :
    parseTokens p ["-"] = .err (.UnknownFlag "") p.help := by
  have hm : isMarker "-" = true := rfl
  have ho : initState.is_option = false := rfl
  have hstrip : asciiLower (stripMarker "-") = "" := rfl
  have hnone : findFlagStep p.flags initState.used_flags
      (asciiLower (stripMarker "-")) = .ok none := by
    rw [hstrip]
    exact findFlagStep_none _ _ _ (by intro u hu; simp [initState] at hu) hne
  have hstep : parseStep p initState "-"
      = .inl (.err (.UnknownFlag "") p.help) := by
    rw [parseStep_marker_noopt p initState "-" hm ho]
    unfold handleFlagToken
    rw [hnone, hstrip]
    simp
  exact parseLoop_cons_inl p initState "-" [] _ hstep

/-- Claim C8, witness: on the concrete spec whose only flag is titled
`x`, the bare marker token fails with `UnknownFlag` on the empty
string. -/
theorem claim8_witness :
    parseTokens spec8w ["-"] = .err (.UnknownFlag "") spec8w.help :=
  claim8_bare_marker_is_flag spec8w (by decide)

/-! ### Claim C9 -/

/-- The full spec of the crate's doc example, for claim C9's witness. -/
def spec9 : Parser :=
  ⟨"Test Parser", "Tests arguments",
    [flagA,
      ⟨"b", "This is the b flag", ["some", "thing"]⟩,
      ⟨"c", "This is the c flag", ["some"]⟩,
      flagD],
    [argFoo, ⟨"bar", "This is the bar argument"⟩]⟩

/-- Claim C9: the usage renderer is a pure function of the spec — its
output depends only on the project title, the project description, and
the flags and arguments in declaration order, so any two calls on equal
data return byte-identical text. -/
theorem claim9_help_deterministic (p q : Parser)
    (h1 : p.project_title = q.project_title)
    (h2 : p.project_description = q.project_description)
    (h3 : p.flags = q.flags) (h4 : p.arguments = q.arguments) :
    p.help = q.help := by
  have hpq : p = q := by
    cases p
    cases q
    simp only [Parser.mk.injEq]
    exact ⟨h1, h2, h3, h4⟩
  rw [hpq]

/-- Claim C9, witness: two calls of the renderer on the doc-example spec
agree. -/
theorem claim9_witness : spec9.help = spec9.help :=
  claim9_help_deterministic spec9 spec9 rfl rfl rfl rfl

/-! ### Claim C10 -/

/-- A spec with no flags and the argument `foo`, for claim C10's
witness. -/
def spec10 : Parser := ⟨"Test Parser", "Tests arguments", [], [argFoo]⟩

/-- Claim C10: on any input none of whose tokens starts with the marker
character, a successful parse returns a flags list equal to exactly
`[("", "")]` — the single pair produced by the final empty-value push of
the never-reassigned initial current flag; in particular the empty token
sequence parses to flags `[("", "")]` and no arguments. -/
theorem claim10_no_marker_flags :
    (∀ (p : Parser) (tokens : List String) (r : ParsedArgs),
        (∀ t ∈ tokens, isMarker t = false) →
        parseTokens p tokens = .ok r → r.flags = [("", "")])
      ∧ (∀ p : Parser, parseTokens p [] = .ok ⟨[("", "")], []⟩) := by
  constructor
  · intro p tokens r hnm h
    have := parseLoop_no_marker p tokens initState r rfl rfl hnm h
    simpa [initState, Flag.new] using this
  · intro p
    rfl

/-- Claim C10, witness: on the spec with only the argument `foo`, the
marker-free input `["foo"]` parses with flags exactly `[("", "")]`, and
the empty input parses to flags `[("", "")]` with no arguments. -/
theorem claim10_witness :
    (ParsedArgs.mk [("", "")] ["foo"]).flags = [("", "")]
      ∧ parseTokens spec10 [] = .ok ⟨[("", "")], []⟩ :=
  ⟨claim10_no_marker_flags.1 spec10 ["foo"] ⟨[("", "")], ["foo"]⟩
      (by decide) rfl,
    claim10_no_marker_flags.2 spec10⟩

end Argparse
